import Mathlib

/-!
Verification of the orchestration core of the Automate-Github-daily-streak
repository, as a shallow embedding in Lean 4.

Strings are modelled as `List Char`; Python `str.lower` is modelled by
`Char.toLower` (identical on ASCII, the only characters occurring in the
classification keywords and the examples); timestamps are modelled as
integers (days) or naturals where the code uses `datetime`; Python floats
are modelled as exact rationals (all constants involved, 2.0/4.0/6.0/0.5/0.75,
are dyadic).
-/

namespace DailyStreak

/-! ## String utilities (Python `in` substring test and `str.lower`) -/

/-- `leadMatch n h` is true when `n` is a prefix of `h` (character-wise). -/
def leadMatch : List Char → List Char → Bool
  | [], _ => true
  | _ :: _, [] => false
  | a :: as, b :: bs => a == b && leadMatch as bs

/-- `occursIn needle hay` models Python's `needle in hay` substring test. -/
def occursIn : List Char → List Char → Bool
  | needle, [] => needle.isEmpty
  | needle, h :: t => leadMatch needle (h :: t) || occursIn needle t

/-- Python `str.lower`, restricted to the ASCII fragment used by the code. -/
def lowerStr (s : List Char) : List Char := s.map Char.toLower

theorem leadMatch_iff (n h : List Char) :
    leadMatch n h = true ↔ ∃ t, n ++ t = h := by
  induction n generalizing h with
  | nil => simp [leadMatch]
  | cons a as ih =>
    cases h with
    | nil => simp [leadMatch]
    | cons b bs =>
      simp only [leadMatch, Bool.and_eq_true, beq_iff_eq, ih, List.cons_append,
        List.cons.injEq]
      constructor
      · rintro ⟨rfl, t, rfl⟩; exact ⟨t, rfl, rfl⟩
      · rintro ⟨t, rfl, rfl⟩; exact ⟨rfl, t, rfl⟩

theorem occursIn_iff (n h : List Char) :
    occursIn n h = true ↔ ∃ s t, s ++ n ++ t = h := by
  induction h with
  | nil =>
    cases n <;> simp [occursIn, List.isEmpty]
  | cons c cs ih =>
    simp only [occursIn, Bool.or_eq_true, leadMatch_iff, ih]
    constructor
    · rintro (⟨t, ht⟩ | ⟨s, t, rfl⟩)
      · exact ⟨[], t, by simpa using ht⟩
      · exact ⟨c :: s, t, rfl⟩
    · rintro ⟨s, t, hst⟩
      cases s with
      | nil => exact Or.inl ⟨t, by simpa using hst⟩
      | cons x xs =>
        simp only [List.cons_append, List.cons.injEq] at hst
        exact Or.inr ⟨xs, t, hst.2⟩

/-! ## Commit strategy (`GitManager.create_commits`, src/automation/git_manager.py)

File paths and commit messages are `List Char`.  The classification loop,
bucket priority, `detailed`-mode group construction and message selection
are translated line by line from the source. -/

/-- The config/docs keyword list from `create_commits`. -/
def configKeywords : List (List Char) :=
  ["readme".toList, "requirements".toList, "license".toList, "config".toList,
   ".gitignore".toList, "changelog".toList]

/-- `"test" in path_str` on the lowercased relative path. -/
def isTestPath (p : List Char) : Bool := occursIn "test".toList (lowerStr p)

/-- `any(x in path_str for x in ["readme", ...])` on the lowercased path. -/
def isConfigPath (p : List Char) : Bool :=
  configKeywords.any (fun k => occursIn k (lowerStr p))

/-- The classification loop of `create_commits`: each path goes to exactly one
of the buckets `(config_docs, source_code, tests)`, tried in the order
test → config/docs → source, appended in input order. -/
def categorizeFiles : List (List Char) → List (List Char) × List (List Char) × List (List Char)
  | [] => ([], [], [])
  | p :: rest =>
    let (cfg, src, tst) := categorizeFiles rest
    if isTestPath p then (cfg, src, p :: tst)
    else if isConfigPath p then (p :: cfg, src, tst)
    else (cfg, p :: src, tst)

/-- `next((m for m in commits_plan if pred m), default)`. -/
def pickMsg (plan : List (List Char)) (pred : List Char → Bool) (dflt : List Char) : List Char :=
  match plan.find? pred with
  | some m => m
  | none => dflt

/-- One commit group: the staged file subset and the chosen message. -/
structure CommitGroup where
  files : List (List Char)
  msg : List Char
  deriving DecidableEq

/-- The `detailed` branch of `create_commits`: config/docs group, the source
bucket split at `mid = len // 2` into `[:mid]` and `[mid:]` when `mid > 0`,
then the tests group. -/
def createCommitsDetailed (files : List (List Char)) (commitsPlan : List (List Char)) :
    List CommitGroup :=
  let (config_docs, source_code, tests) := categorizeFiles files
  let g1 : List CommitGroup :=
    if config_docs.isEmpty then []
    else [⟨config_docs,
      pickMsg commitsPlan
        (fun m => occursIn "chore".toList m || occursIn "init".toList m)
        "chore: initial project structure".toList⟩]
  let gsrc : List CommitGroup :=
    if source_code.isEmpty then []
    else
      let mid := source_code.length / 2
      if 0 < mid then
        [⟨source_code.take mid,
           pickMsg commitsPlan (fun m => occursIn "feat".toList m)
             "feat: implement core functionality".toList⟩,
         ⟨source_code.drop mid,
           pickMsg commitsPlan
             (fun m => occursIn "refactor".toList m || occursIn "fix".toList m)
             "refactor: optimize implementation".toList⟩]
      else
        [⟨source_code,
           pickMsg commitsPlan (fun m => occursIn "feat".toList m)
             "feat: implement core functionality".toList⟩]
  let g3 : List CommitGroup :=
    if tests.isEmpty then []
    else [⟨tests,
      pickMsg commitsPlan (fun m => occursIn "test".toList m)
        "test: add unit tests".toList⟩]
  g1 ++ gsrc ++ g3

/-- The example file list of the spec's commit-strategy test property. -/
def exampleFiles : List (List Char) :=
  ["README.md".toList, "src/a.py".toList, "src/b.py".toList,
   "src/c.py".toList, "tests/t.py".toList]

/-! ## Skill proficiency update (`SkillMapper.update_skill_proficiency`,
src/planning/skill_mapper.py) -/

/-- `DifficultyLevel` enumeration from src/database.py. -/
inductive DifficultyLevel
  | beginner
  | intermediate
  | advanced
  deriving DecidableEq

/-- The `difficulty_multipliers` table (`.get(difficulty, 2.0)` never falls
through to the default: the table covers the whole enumeration). -/
def difficultyMultiplier : DifficultyLevel → ℚ
  | .beginner => 2
  | .intermediate => 4
  | .advanced => 6

/-- The mutable `Skill` row fields touched by the proficiency update;
timestamps are naturals. -/
structure Skill where
  proficiency : ℚ
  projects_count : ℕ
  last_used : Option ℕ
  updated_at : Option ℕ
  deriving DecidableEq

/-- `SkillMapper.update_skill_proficiency`, with `now` standing for
`datetime.utcnow()`. -/
def update_skill_proficiency (skill : Skill) (difficulty : DifficultyLevel)
    (contribution_weight : ℚ) (now : ℕ) : Skill :=
  let base_gain := difficultyMultiplier difficulty
  let gain0 := base_gain * contribution_weight
  let current_prof := skill.proficiency
  let actual_gain :=
    if current_prof ≥ 80 then gain0 * (1/2)
    else if current_prof ≥ 50 then gain0 * (3/4)
    else gain0
  { proficiency := min 100 (current_prof + actual_gain)
    projects_count := skill.projects_count + 1
    last_used := some now
    updated_at := some now }

/-! ## Activity streak (`AnalyticsEngine.calculate_streak`,
src/tracking/analytics.py)

Calendar dates are integers (days).  The activity query returns dates in
strictly descending order (`order_by(date.desc())`, one row per date). -/

/-- The backward scan of `calculate_streak`: starting from the most recent
date `prev`, count how many further records each sit exactly one day
earlier than their successor. -/
def streakRun : ℤ → List ℤ → ℕ
  | _, [] => 0
  | prev, current :: rest =>
    if prev - current = 1 then 1 + streakRun current rest else 0

/-- `AnalyticsEngine.calculate_streak`; `dates` is the (descending) list of
`DailyActivity` dates, `today` is `datetime.utcnow().date()`. -/
def calculate_streak (today : ℤ) (dates : List ℤ) : ℕ :=
  match dates with
  | [] => 0
  | last_active :: rest =>
    if last_active = today then 1 + streakRun last_active rest
    else if last_active = today - 1 then 1 + streakRun last_active rest
    else 0

/-- Modelled from the claim's words: the length of the longest prefix of the
date list forming consecutive descending calendar days. -/
def chainLen : List ℤ → ℕ
  | [] => 0
  | [_] => 1
  | a :: b :: rest => if a - b = 1 then 1 + chainLen (b :: rest) else 1

/-! ## Novelty validation (`ProjectPlanner.validate_project_novelty`,
src/planning/project_planner.py)

Creation times are integers in days, so the `datetime.utcnow() -
timedelta(days=30)` cutoff is `now - 30`. -/

/-- The `Project` row fields the novelty check reads. -/
structure ProjectRow where
  title : List Char
  created_at : ℤ
  deriving DecidableEq

/-- `ProjectPlanner.validate_project_novelty`: exact-title match anywhere in
history, then case-insensitive mutual-substring match against projects
created in the trailing 30-day window. -/
def validate_project_novelty (now : ℤ) (history : List ProjectRow)
    (candidateTitle : List Char) : Bool :=
  if history.any (fun p => p.title == candidateTitle) then false
  else
    let cutoff := now - 30
    let recent := history.filter (fun p => cutoff ≤ p.created_at)
    let title_lower := lowerStr candidateTitle
    if recent.any (fun p =>
        occursIn (lowerStr p.title) title_lower ||
        occursIn title_lower (lowerStr p.title)) then false
    else true

/-! ## Gap analysis (`SkillMapper.get_skill_gaps`,
src/planning/skill_mapper.py) -/

/-- `ProjectCategory` enumeration from src/database.py. -/
inductive ProjectCategory
  | ai_ml
  | full_stack
  | system_design
  | security_blockchain
  deriving DecidableEq

/-- `sum(s.proficiency for s in skills) / len(skills)` with the `else 0.0`
branch for an empty category. -/
def avgProficiency (profs : List ℚ) : ℚ :=
  if profs.isEmpty then 0 else profs.sum / profs.length

/-- `SkillMapper.get_skill_gaps` at one category: `focusAreas` is the
configured weight table (`focus_areas.get(category_key, 0)`), `skillsOf`
gives the proficiencies of the category's tracked skills. -/
def get_skill_gaps (focusAreas : ProjectCategory → Option ℚ)
    (skillsOf : ProjectCategory → List ℚ) (category : ProjectCategory) : ℚ :=
  let target_weight := (focusAreas category).getD 0
  let avg_proficiency := avgProficiency (skillsOf category)
  target_weight * (100 - avg_proficiency) / 100

/-! ## Skill selection (`SkillMapper.select_skills_for_project`,
src/planning/skill_mapper.py)

Python's `sorted(skills, key=lambda s: (s.proficiency, s.projects_count))`
is a stable ascending sort by the lexicographic key; it is modelled by a
stable insertion sort over the corresponding total preorder. -/

/-- The sort key order: lexicographic on `(proficiency, projects_count)`. -/
def skillKeyLE (a b : Skill) : Prop :=
  a.proficiency < b.proficiency ∨
    (a.proficiency = b.proficiency ∧ a.projects_count ≤ b.projects_count)

instance : DecidableRel skillKeyLE := fun a b => by
  unfold skillKeyLE; infer_instance

instance : IsTotal Skill skillKeyLE where
  total a b := by
    rcases lt_trichotomy a.proficiency b.proficiency with h | h | h
    · exact Or.inl (Or.inl h)
    · rcases Nat.le_total a.projects_count b.projects_count with h2 | h2
      · exact Or.inl (Or.inr ⟨h, h2⟩)
      · exact Or.inr (Or.inr ⟨h.symm, h2⟩)
    · exact Or.inr (Or.inl h)

instance : IsTrans Skill skillKeyLE where
  trans a b c hab hbc := by
    rcases hab with h1 | ⟨e1, l1⟩
    · rcases hbc with h2 | ⟨e2, _⟩
      · exact Or.inl (h1.trans h2)
      · exact Or.inl (e2 ▸ h1)
    · rcases hbc with h2 | ⟨e2, l2⟩
      · exact Or.inl (e1 ▸ h2)
      · exact Or.inr ⟨e1.trans e2, l1.trans l2⟩

/-- `SkillMapper.select_skills_for_project` restricted to the already-fetched
category skill list: stable sort ascending by `(proficiency, projects_count)`,
then take the first `num_skills` (default 3). -/
def select_skills_for_project (skills : List Skill) (num_skills : ℕ := 3) :
    List Skill :=
  (List.insertionSort skillKeyLE skills).take num_skills

/-! ## Daily workflow (`WorkflowEngine.run_daily_workflow`,
src/orchestration/workflow_engine.py)

The engine's own state transitions (create the `Project` record and set it
`in_progress` in step 3, mark it `completed` in step 9) are embedded
directly; the delegated steps (planning, code/doc generation, git and
remote operations, skill update, activity/achievement bookkeeping) are
parameters that either return an updated state or raise, `Except.error`
carrying the state as mutated up to the raise point.  The top-level
`try/except` returns `None` on any exception and performs no state change
of its own. -/

/-- `ProjectStatus` enumeration from src/database.py. -/
inductive ProjectStatus
  | planned
  | in_progress
  | completed
  | failed
  deriving DecidableEq

/-- The persistent state the workflow's failure-handling claim observes:
the status of this run's `Project` record (`none` before step 3 creates it)
and its completion timestamp. -/
structure WfState where
  status : Option ProjectStatus
  completed_at : Option ℕ
  deriving DecidableEq

/-- Step 3: `create_project_record` (status `planned`) immediately followed
by `project.status = ProjectStatus.IN_PROGRESS; session.commit()`. -/
def createRecordStep (s : WfState) : WfState :=
  { s with status := some .in_progress }

/-- Step 9: `project.status = ProjectStatus.COMPLETED;
project.completed_at = datetime.utcnow()`. -/
def completeStep (now : ℕ) (s : WfState) : WfState :=
  { s with status := some .completed, completed_at := some now }

/-- The `try` body of `run_daily_workflow`: plan (steps 1–2), create the
record (step 3), generate/commit/push (steps 4–7), update skills (step 8),
mark completed (step 9), log activity and achievements (steps 10–11). -/
def workflowBody (now : ℕ)
    (planSteps genSteps skillStep tailSteps : WfState → Except WfState WfState)
    (s0 : WfState) : Except WfState WfState :=
  match planSteps s0 with
  | .error e => .error e
  | .ok s2 =>
    match genSteps (createRecordStep s2) with
    | .error e => .error e
    | .ok s7 =>
      match skillStep s7 with
      | .error e => .error e
      | .ok s8 => tailSteps (completeStep now s8)

/-- `WorkflowEngine.run_daily_workflow`: the `except` clause only logs and
returns `None`; on success the completed project (represented by its status)
is returned. -/
def run_daily_workflow (now : ℕ)
    (planSteps genSteps skillStep tailSteps : WfState → Except WfState WfState)
    (s0 : WfState) : Option ProjectStatus × WfState :=
  match workflowBody now planSteps genSteps skillStep tailSteps s0 with
  | .ok s => (s.status, s)
  | .error s => (none, s)

/-- A delegated workflow step that succeeds without touching the state. -/
def okStep (s : WfState) : Except WfState WfState := .ok s

/-- A delegated workflow step that raises without touching the state. -/
def raiseStep (s : WfState) : Except WfState WfState := .error s

/-! ## Achievements (`WorkflowEngine._check_achievements`,
src/orchestration/workflow_engine.py, and the seed rows of
`DatabaseManager.initialize_achievements`, src/database.py) -/

/-- The `criteria_type` column values. -/
inductive CriteriaType
  | project_count
  | streak
  | skill_level
  deriving DecidableEq

/-- The `Achievement` row fields the evaluator reads and writes. -/
structure Achievement where
  name : List Char
  criteria_type : CriteriaType
  criteria_value : ℕ
  is_unlocked : Bool
  unlocked_at : Option ℕ
  deriving DecidableEq

/-- `WorkflowEngine._unlock_achievement` (sans console output). -/
def unlock_achievement (now : ℕ) (a : Achievement) : Achievement :=
  { a with is_unlocked := true, unlocked_at := some now }

/-- The effect of the first pass of `_check_achievements` on one row: a
locked `project_count` achievement whose threshold the total project count
meets is unlocked; every other row is untouched (the query filters on
`is_unlocked=False, criteria_type='project_count'`). -/
def projRowStep (now : ℕ) (project_count : ℕ) (a : Achievement) :
    Achievement :=
  if a.is_unlocked = false ∧ a.criteria_type = .project_count ∧
      a.criteria_value ≤ project_count
  then unlock_achievement now a else a

/-- The effect of the second pass of `_check_achievements` on one row: a
locked `skill_level` achievement whose threshold the mean proficiency meets
is unlocked; every other row is untouched. -/
def skillRowStep (now : ℕ) (avg_proficiency : ℚ) (a : Achievement) :
    Achievement :=
  if a.is_unlocked = false ∧ a.criteria_type = .skill_level ∧
      (a.criteria_value : ℚ) ≤ avg_proficiency
  then unlock_achievement now a else a

/-- First pass of `_check_achievements` over the achievement table. -/
def checkProjectCountPass (now : ℕ) (project_count : ℕ)
    (achs : List Achievement) : List Achievement :=
  achs.map (projRowStep now project_count)

/-- Second pass of `_check_achievements` over the achievement table. -/
def checkSkillLevelPass (now : ℕ) (avg_proficiency : ℚ)
    (achs : List Achievement) : List Achievement :=
  achs.map (skillRowStep now avg_proficiency)

/-- `WorkflowEngine._check_achievements`: the project-count pass, then the
skill-level pass over the average proficiency of all tracked skills
(`0` when there are none). -/
def check_achievements (now : ℕ) (project_count : ℕ) (skillProfs : List ℚ)
    (achs : List Achievement) : List Achievement :=
  checkSkillLevelPass now (avgProficiency skillProfs)
    (checkProjectCountPass now project_count achs)

/-- The per-row effect of one whole `_check_achievements` evaluation. -/
def achStep (now : ℕ) (project_count : ℕ) (avg : ℚ) (a : Achievement) :
    Achievement :=
  skillRowStep now avg (projRowStep now project_count a)

/-- The achievement seed rows of `initialize_achievements` (name,
criteria type, threshold; all start locked). -/
def seededAchievements : List Achievement :=
  [⟨"Hello World".toList, .project_count, 1, false, none⟩,
   ⟨"Code Warrior".toList, .project_count, 5, false, none⟩,
   ⟨"Project Master".toList, .project_count, 10, false, none⟩,
   ⟨"Consistency is Key".toList, .streak, 3, false, none⟩,
   ⟨"Novice Coder".toList, .skill_level, 20, false, none⟩,
   ⟨"Expert Engineer".toList, .skill_level, 80, false, none⟩]

/-! ## Scheduler (`DailyScheduler._scheduled_job`,
src/automation/scheduler.py)

The jitter sleep only delays the run and is not modelled.  The workflow
invocation is an oracle `runAttempt : ℕ → Bool` giving the outcome of the
attempt made with retry counter `n` (`false` covers both an exception and a
`None` result, which the job re-raises).  The `while retries <= max_retries`
loop is embedded structurally on the remaining budget
`max_retries + 1 - retries`; waits are recorded in seconds
(`60 * 5 * retries`). -/

/-- Outcome of one scheduled fire: number of workflow attempts, the backoff
waits performed between them (seconds), whether a run succeeded, and whether
the fire was aborted by the weekend skip. -/
structure JobOutcome where
  attempts : ℕ
  waits : List ℕ
  succeeded : Bool
  skippedWeekend : Bool
  deriving DecidableEq

/-- The retry loop of `_scheduled_job`.  `attemptIdx` is the current value
of `retries`; `budget` is `max_retries + 1 - retries`, so `budget = 0` means
the `while retries <= max_retries` guard fails. -/
def retryLoop (runAttempt : ℕ → Bool) (attemptIdx : ℕ) :
    ℕ → ℕ × List ℕ × Bool
  | 0 => (0, [], false)
  | budget + 1 =>
    if runAttempt attemptIdx then (1, [], true)
    else if 0 < budget then
      let res := retryLoop runAttempt (attemptIdx + 1) budget
      (res.1 + 1, (60 * 5 * (attemptIdx + 1)) :: res.2.1, res.2.2)
    else (1, [], false)

/-- `DailyScheduler._scheduled_job`: weekend skip
(`datetime.now().weekday() >= 5`), then the retry loop with
`max_retries = config.max_retries if retry_on_failure else 0`. -/
def scheduled_job (skip_weekends : Bool) (weekday : ℕ) (retry_on_failure : Bool)
    (max_retries_cfg : ℕ) (runAttempt : ℕ → Bool) : JobOutcome :=
  if skip_weekends ∧ 5 ≤ weekday then ⟨0, [], false, true⟩
  else
    let max_retries := if retry_on_failure then max_retries_cfg else 0
    let res := retryLoop runAttempt 0 (max_retries + 1)
    ⟨res.1, res.2.1, res.2.2, false⟩

/-! ## Theorems -/

/-- C2: for every skill with proficiency `p ∈ [0,100]` and every update with
difficulty `d` and contribution weight `w ∈ (0,1]`, the new proficiency is
`min 100 (p + g)` with `g = multiplier(d) · w` scaled by `0.5` when `p ≥ 80`,
else by `0.75` when `p ≥ 50`; the result lies in `[0,100]`, `projects_count`
grows by exactly 1, and `last_used`/`updated_at` are set to the update
time. -/
theorem update_skill_proficiency_spec (s : Skill) (d : DifficultyLevel)
    (w : ℚ) (now : ℕ) (hp0 : 0 ≤ s.proficiency) (hp1 : s.proficiency ≤ 100)
    (hw0 : 0 < w) (hw1 : w ≤ 1) :
    (update_skill_proficiency s d w now).proficiency =
      min 100 (s.proficiency + difficultyMultiplier d * w *
        (if 80 ≤ s.proficiency then 1/2
         else if 50 ≤ s.proficiency then 3/4 else 1)) ∧
    0 ≤ (update_skill_proficiency s d w now).proficiency ∧
    (update_skill_proficiency s d w now).proficiency ≤ 100 ∧
    (update_skill_proficiency s d w now).projects_count =
      s.projects_count + 1 ∧
    (update_skill_proficiency s d w now).last_used = some now ∧
    (update_skill_proficiency s d w now).updated_at = some now := by
  have hmul : 0 ≤ difficultyMultiplier d := by
    cases d <;> simp [difficultyMultiplier]
  have hgain : 0 ≤ difficultyMultiplier d * w *
      (if 80 ≤ s.proficiency then (1:ℚ)/2
       else if 50 ≤ s.proficiency then 3/4 else 1) := by
    have hw : 0 ≤ w := le_of_lt hw0
    split_ifs <;> positivity
  refine ⟨?_, ?_, ?_, rfl, rfl, rfl⟩
  · simp only [update_skill_proficiency]
    split_ifs <;> ring_nf
  · simp only [update_skill_proficiency]
    have hsum : 0 ≤ s.proficiency + difficultyMultiplier d * w *
        (if 80 ≤ s.proficiency then (1:ℚ)/2
         else if 50 ≤ s.proficiency then 3/4 else 1) := by linarith
    split_ifs at hsum ⊢ with h1 h2
    · exact le_min (by norm_num) (by linarith)
    · exact le_min (by norm_num) (by linarith)
    · exact le_min (by norm_num) (by linarith)
  · simp only [update_skill_proficiency]
    split_ifs <;> exact min_le_left _ _

/-- Witness for C2 at the concrete input `p = 60`, beginner difficulty,
`w = 1`: the gain is `2 · 1 · 0.75` and the update behaves as stated. -/
theorem update_skill_proficiency_spec_witness :
    (0:ℚ) ≤ 60 ∧ (60:ℚ) ≤ 100 ∧ (0:ℚ) < 1 ∧ (1:ℚ) ≤ 1 ∧
    ((update_skill_proficiency ⟨60, 4, none, none⟩ .beginner 1 7).proficiency =
      min 100 ((60:ℚ) + difficultyMultiplier .beginner * 1 *
        (if (80:ℚ) ≤ 60 then 1/2 else if (50:ℚ) ≤ 60 then 3/4 else 1)) ∧
     0 ≤ (update_skill_proficiency ⟨60, 4, none, none⟩ .beginner 1 7).proficiency ∧
     (update_skill_proficiency ⟨60, 4, none, none⟩ .beginner 1 7).proficiency ≤ 100 ∧
     (update_skill_proficiency ⟨60, 4, none, none⟩ .beginner 1 7).projects_count = 4 + 1 ∧
     (update_skill_proficiency ⟨60, 4, none, none⟩ .beginner 1 7).last_used = some 7 ∧
     (update_skill_proficiency ⟨60, 4, none, none⟩ .beginner 1 7).updated_at = some 7) :=
  ⟨by norm_num, by norm_num, by norm_num, le_refl 1,
   update_skill_proficiency_spec ⟨60, 4, none, none⟩ .beginner 1 7
     (by norm_num) (by norm_num) (by norm_num) (le_refl 1)⟩

/-- C5: the gap score of a category is
`target_weight · (100 − average proficiency) / 100`, and a category whose
configured target weight is 0 always has gap score 0, whatever the
proficiencies of its skills. -/
theorem get_skill_gaps_spec (focusAreas : ProjectCategory → Option ℚ)
    (skillsOf : ProjectCategory → List ℚ) (category : ProjectCategory) :
    get_skill_gaps focusAreas skillsOf category =
      (focusAreas category).getD 0 *
        (100 - avgProficiency (skillsOf category)) / 100 ∧
    ((focusAreas category).getD 0 = 0 →
      get_skill_gaps focusAreas skillsOf category = 0) := by
  refine ⟨rfl, fun h => ?_⟩
  simp [get_skill_gaps, h]

/-- Witness for C5: with no configured weight for `ai_ml` (so the weight
defaults to 0) and a skill at proficiency 50, the gap score is 0. -/
theorem get_skill_gaps_spec_witness :
    (((fun _ : ProjectCategory => (none : Option ℚ)) ProjectCategory.ai_ml).getD 0 = 0) ∧
    get_skill_gaps (fun _ => none) (fun _ => [50]) ProjectCategory.ai_ml = 0 :=
  ⟨rfl, (get_skill_gaps_spec (fun _ => none) (fun _ => [50])
    ProjectCategory.ai_ml).2 rfl⟩

/-- C4: the novelty check returns `false` exactly when an identical title
exists anywhere in history, or a project created within the trailing 30-day
window has a title that is a case-insensitive substring of the candidate
title or vice versa; in particular "Task Manager" is rejected while
"Task Manager App" was created 5 days ago and accepted when it was created
40 days ago. -/
theorem validate_project_novelty_spec (now : ℤ) (history : List ProjectRow)
    (candidateTitle : List Char) :
    (validate_project_novelty now history candidateTitle = false ↔
      (∃ p ∈ history, p.title = candidateTitle) ∨
      (∃ p ∈ history, now - 30 ≤ p.created_at ∧
        ((∃ s t, s ++ lowerStr p.title ++ t = lowerStr candidateTitle) ∨
         (∃ s t, s ++ lowerStr candidateTitle ++ t = lowerStr p.title)))) ∧
    validate_project_novelty 100 [⟨"Task Manager App".toList, 95⟩]
      "Task Manager".toList = false ∧
    validate_project_novelty 100 [⟨"Task Manager App".toList, 60⟩]
      "Task Manager".toList = true := by
  refine ⟨?_, by decide, by decide⟩
  have hBiff : ((history.filter (fun p => now - 30 ≤ p.created_at)).any (fun p =>
        occursIn (lowerStr p.title) (lowerStr candidateTitle) ||
        occursIn (lowerStr candidateTitle) (lowerStr p.title)) = true) ↔
      (∃ p ∈ history, now - 30 ≤ p.created_at ∧
        ((∃ s t, s ++ lowerStr p.title ++ t = lowerStr candidateTitle) ∨
         (∃ s t, s ++ lowerStr candidateTitle ++ t = lowerStr p.title))) := by
    simp [List.any_eq_true, List.mem_filter, occursIn_iff, and_assoc]
  simp only [validate_project_novelty]
  split_ifs with h1 h2
  · refine iff_of_true rfl (Or.inl ?_)
    simpa [List.any_eq_true] using h1
  · exact iff_of_true rfl (Or.inr (hBiff.mp h2))
  · refine iff_of_false (by simp) ?_
    rw [not_or]
    constructor
    · intro hc
      exact h1 (by simpa [List.any_eq_true] using hc)
    · intro hc
      exact h2 (hBiff.mpr hc)

/-- C6: skill selection returns the category's skills in ascending order of
the pair `(proficiency, projects_count)`, truncated to the first `n`
(default 3); the output is sorted in that order, has `min n (number of
skills)` elements drawn from the input, and on skills
`A = (10, 5)`, `B = (10, 2)` the top-1 selection is `[B]`. -/
theorem select_skills_for_project_spec (skills : List Skill) (n : ℕ) :
    List.Sorted skillKeyLE (select_skills_for_project skills n) ∧
    (select_skills_for_project skills n).length = min n skills.length ∧
    (∀ s ∈ select_skills_for_project skills n, s ∈ skills) ∧
    select_skills_for_project [⟨10, 5, none, none⟩, ⟨10, 2, none, none⟩] 1 =
      [⟨10, 2, none, none⟩] := by
  refine ⟨?_, ?_, ?_, ?_⟩
  · exact List.Pairwise.sublist (List.take_sublist n _)
      (List.sorted_insertionSort skillKeyLE skills)
  · rw [select_skills_for_project, List.length_take,
      (List.perm_insertionSort skillKeyLE skills).length_eq]
  · intro s hs
    have hs' : s ∈ List.insertionSort skillKeyLE skills :=
      (List.take_sublist n _).mem hs
    exact (List.perm_insertionSort skillKeyLE skills).mem_iff.mp hs'
  · decide

/-- Witness for C6 on the two-skill example: the selected skill `B` indeed
comes from the input list. -/
theorem select_skills_for_project_spec_witness :
    (⟨10, 2, none, none⟩ : Skill) ∈
      select_skills_for_project [⟨10, 5, none, none⟩, ⟨10, 2, none, none⟩] 1 ∧
    (⟨10, 2, none, none⟩ : Skill) ∈
      [(⟨10, 5, none, none⟩ : Skill), ⟨10, 2, none, none⟩] :=
  ⟨by decide,
   (select_skills_for_project_spec
      [⟨10, 5, none, none⟩, ⟨10, 2, none, none⟩] 1).2.2.1
     ⟨10, 2, none, none⟩ (by decide)⟩

/-- The backward scan of `calculate_streak` counts exactly the consecutive
prefix of the date list: 1 (for the most recent record) plus the run of
records each one day before their successor. -/
theorem one_add_streakRun (d : ℤ) (rest : List ℤ) :
    1 + streakRun d rest = chainLen (d :: rest) := by
  induction rest generalizing d with
  | nil => simp [streakRun, chainLen]
  | cons b r ih =>
    by_cases h : d - b = 1 <;> simp [streakRun, chainLen, h, ← ih]

/-- C3: the streak is 0 when there are no activity records or the most
recent record (necessarily dated no later than today) is older than
yesterday; otherwise it is 1 plus the number of consecutive earlier records
each dated exactly one day before the next; in particular dates
{today, today−1, today−2} give streak 3 and the single date {today−2} gives
streak 0. -/
theorem calculate_streak_spec (today : ℤ) :
    calculate_streak today [] = 0 ∧
    (∀ d rest, d ≤ today →
      (d < today - 1 → calculate_streak today (d :: rest) = 0) ∧
      (today - 1 ≤ d →
        calculate_streak today (d :: rest) = chainLen (d :: rest))) ∧
    calculate_streak today [today, today - 1, today - 2] = 3 ∧
    calculate_streak today [today - 2] = 0 := by
  refine ⟨rfl, ?_, ?_, ?_⟩
  · intro d rest hd
    constructor
    · intro hlt
      have h1 : d ≠ today := by omega
      have h2 : d ≠ today - 1 := by omega
      simp [calculate_streak, h1, h2]
    · intro hge
      have : d = today ∨ d = today - 1 := by omega
      rcases this with rfl | rfl
      · simp [calculate_streak, one_add_streakRun]
      · rw [calculate_streak]
        rw [if_neg (by omega), if_pos rfl, one_add_streakRun]
  · have e1 : today - (today - 1) = 1 := by ring
    have e2 : today - 1 - (today - 2) = 1 := by ring
    simp [calculate_streak, streakRun, e1, e2]
  · rw [calculate_streak, if_neg (by omega), if_neg (by omega)]

/-- Witness for C3 at `today = 0`: the single record dated `-2` is older
than yesterday and yields streak 0, and the record dated `0` (today) with a
record dated `-1` behind it yields streak 2. -/
theorem calculate_streak_spec_witness :
    ((-2 : ℤ) ≤ 0 ∧ (-2 : ℤ) < 0 - 1 ∧ calculate_streak 0 [-2] = 0) ∧
    ((0 : ℤ) ≤ 0 ∧ (0 : ℤ) - 1 ≤ 0 ∧
      calculate_streak 0 [0, -1] = chainLen [0, -1] ∧
      chainLen [(0 : ℤ), -1] = 2) :=
  ⟨⟨by norm_num, by norm_num,
      ((calculate_streak_spec 0).2.1 (-2) [] (by norm_num)).1 (by norm_num)⟩,
   ⟨le_refl 0, by norm_num,
      ((calculate_streak_spec 0).2.1 0 [-1] (le_refl 0)).2 (by norm_num),
      by decide⟩⟩

/-- The classification loop of `create_commits` sends each path to exactly
one bucket, with priority tests → config/docs → source, preserving input
order: the three buckets are the corresponding filters of the input. -/
theorem categorizeFiles_eq (files : List (List Char)) :
    categorizeFiles files =
      (files.filter (fun p => !(isTestPath p) && isConfigPath p),
       files.filter (fun p => !(isTestPath p) && !(isConfigPath p)),
       files.filter (fun p => isTestPath p)) := by
  induction files with
  | nil => rfl
  | cons p rest ih =>
    simp only [categorizeFiles, ih]
    by_cases h1 : isTestPath p <;> by_cases h2 : isConfigPath p <;>
      simp [List.filter_cons, h1, h2]

/-- C1, counterexample: on the file list
`[README.md, src/a.py, src/b.py, src/c.py, tests/t.py]` the `detailed`
strategy produces groups of sizes `[1, 1, 2, 1]` — the first source
sub-group gets `⌊3/2⌋ = 1` file — not `[1, 2, 1, 1]` as claimed. -/
theorem create_commits_detailed_counterexample :
    (createCommitsDetailed exampleFiles []).map (fun g => g.files.length) =
      [1, 1, 2, 1] ∧
    ¬ ((createCommitsDetailed exampleFiles []).map
        (fun g => g.files.length) = [1, 2, 1, 1]) := by
  decide

/-- C1, amended: each path is classified by lowercased substring match into
exactly one bucket (tests, else config/docs, else source, the buckets being
the corresponding filters in input order); a source bucket with at least two
files is split at `mid = ⌊n/2⌋` into `[:mid]` and `[mid:]` (so the FIRST
sub-group gets `⌊n/2⌋` files), groups ordered
[config/docs, source-first, source-second, tests]; on the example input the
4 groups are [config/docs(1), source(1), source(2), tests(1)]. -/
theorem create_commits_detailed_spec (files plan : List (List Char))
    (h : 2 ≤ (categorizeFiles files).2.1.length) :
    (categorizeFiles files).1 =
      files.filter (fun p => !(isTestPath p) && isConfigPath p) ∧
    (categorizeFiles files).2.1 =
      files.filter (fun p => !(isTestPath p) && !(isConfigPath p)) ∧
    (categorizeFiles files).2.2 = files.filter (fun p => isTestPath p) ∧
    (createCommitsDetailed files plan).map CommitGroup.files =
      ((if (categorizeFiles files).1.isEmpty then []
        else [(categorizeFiles files).1]) ++
       [(categorizeFiles files).2.1.take ((categorizeFiles files).2.1.length / 2),
        (categorizeFiles files).2.1.drop ((categorizeFiles files).2.1.length / 2)] ++
       (if (categorizeFiles files).2.2.isEmpty then []
        else [(categorizeFiles files).2.2])) ∧
    createCommitsDetailed exampleFiles [] =
      [⟨["README.md".toList], "chore: initial project structure".toList⟩,
       ⟨["src/a.py".toList], "feat: implement core functionality".toList⟩,
       ⟨["src/b.py".toList, "src/c.py".toList],
         "refactor: optimize implementation".toList⟩,
       ⟨["tests/t.py".toList], "test: add unit tests".toList⟩] := by
  obtain ⟨e1, e2, e3⟩ :
      (categorizeFiles files).1 =
        files.filter (fun p => !(isTestPath p) && isConfigPath p) ∧
      (categorizeFiles files).2.1 =
        files.filter (fun p => !(isTestPath p) && !(isConfigPath p)) ∧
      (categorizeFiles files).2.2 = files.filter (fun p => isTestPath p) := by
    rw [categorizeFiles_eq]
    exact ⟨rfl, rfl, rfl⟩
  refine ⟨e1, e2, e3, ?_, by decide⟩
  rcases hc : categorizeFiles files with ⟨cfg, src, tst⟩
  rw [hc] at h
  have hsrc : src.isEmpty = false := by
    cases src with
    | nil => simp at h
    | cons a l => rfl
  have hmid : 0 < src.length / 2 := by
    have : 2 ≤ src.length := h
    omega
  simp only [createCommitsDetailed, hc, hsrc, Bool.false_eq_true, if_false,
    if_pos hmid]
  by_cases hcfg : cfg.isEmpty <;> by_cases htst : tst.isEmpty <;>
    simp [hcfg, htst]

/-- Witness for the amended C1 at the example input (its source bucket has
3 ≥ 2 files): the four produced groups, with their default messages. -/
theorem create_commits_detailed_spec_witness :
    2 ≤ (categorizeFiles exampleFiles).2.1.length ∧
    createCommitsDetailed exampleFiles [] =
      [⟨["README.md".toList], "chore: initial project structure".toList⟩,
       ⟨["src/a.py".toList], "feat: implement core functionality".toList⟩,
       ⟨["src/b.py".toList, "src/c.py".toList],
         "refactor: optimize implementation".toList⟩,
       ⟨["tests/t.py".toList], "test: add unit tests".toList⟩] :=
  ⟨by decide,
   (create_commits_detailed_spec exampleFiles [] (by decide)).2.2.2.2⟩

/-- C7: an uncaught exception at any step of the daily workflow skips all
remaining steps and makes the call return the "no project" outcome `none`,
with the persistent state exactly as it was at the raise point — the
failure path performs no compensating change; in particular when a step
after step 3 raises, the `Project` record keeps the `in_progress` status
set in step 3 and is never transitioned to `failed`. -/
theorem run_daily_workflow_failure (now : ℕ)
    (planSteps genSteps skillStep tailSteps : WfState → Except WfState WfState)
    (s0 : WfState) :
    (∀ se, workflowBody now planSteps genSteps skillStep tailSteps s0 =
        .error se →
      run_daily_workflow now planSteps genSteps skillStep tailSteps s0 =
        (none, se)) ∧
    (∀ s2, planSteps s0 = .ok s2 →
      genSteps (createRecordStep s2) = .error (createRecordStep s2) →
      run_daily_workflow now planSteps genSteps skillStep tailSteps s0 =
        (none, createRecordStep s2) ∧
      (createRecordStep s2).status = some .in_progress ∧
      (run_daily_workflow now planSteps genSteps skillStep tailSteps
        s0).2.status = some .in_progress ∧
      (run_daily_workflow now planSteps genSteps skillStep tailSteps
        s0).2.status ≠ some .failed) := by
  constructor
  · intro se he
    simp [run_daily_workflow, he]
  · intro s2 hplan hgen
    have hbody : workflowBody now planSteps genSteps skillStep tailSteps s0 =
        .error (createRecordStep s2) := by
      simp [workflowBody, hplan, hgen]
    have hrun : run_daily_workflow now planSteps genSteps skillStep tailSteps
        s0 = (none, createRecordStep s2) := by
      simp [run_daily_workflow, hbody]
    refine ⟨hrun, rfl, ?_, ?_⟩
    · rw [hrun]
      rfl
    · rw [hrun]
      simp [createRecordStep]

/-- Witness for C7: with successful planning, a generation step that raises
without touching the state, and a fresh initial state, the workflow returns
`none` and the project record stays `in_progress`. -/
theorem run_daily_workflow_failure_witness :
    okStep ⟨none, none⟩ = .ok (⟨none, none⟩ : WfState) ∧
    raiseStep (createRecordStep ⟨none, none⟩) =
      .error (createRecordStep ⟨none, none⟩) ∧
    (run_daily_workflow 0 okStep raiseStep okStep okStep ⟨none, none⟩ =
      (none, createRecordStep ⟨none, none⟩) ∧
     (createRecordStep (⟨none, none⟩ : WfState)).status = some .in_progress ∧
     (run_daily_workflow 0 okStep raiseStep okStep okStep
        ⟨none, none⟩).2.status = some .in_progress ∧
     (run_daily_workflow 0 okStep raiseStep okStep okStep
        ⟨none, none⟩).2.status ≠ some .failed) :=
  ⟨rfl, rfl,
   (run_daily_workflow_failure 0 okStep raiseStep okStep okStep
      ⟨none, none⟩).2 ⟨none, none⟩ rfl rfl⟩

/-- One `_check_achievements` evaluation acts row by row: the two passes
compose to `achStep` on each achievement row. -/
theorem check_achievements_eq_map (now project_count : ℕ) (skillProfs : List ℚ)
    (achs : List Achievement) :
    check_achievements now project_count skillProfs achs =
      achs.map (achStep now project_count (avgProficiency skillProfs)) := by
  simp only [check_achievements, checkSkillLevelPass, checkProjectCountPass,
    List.map_map]
  rfl

/-- An already-unlocked achievement is untouched by an evaluation step. -/
theorem achStep_of_unlocked (now project_count : ℕ) (avg : ℚ)
    (a : Achievement) (h : a.is_unlocked = true) :
    achStep now project_count avg a = a := by
  simp [achStep, projRowStep, skillRowStep, h]

/-- An evaluation step either leaves the row unchanged or leaves it
unlocked. -/
theorem achStep_cases (now project_count : ℕ) (avg : ℚ) (a : Achievement) :
    achStep now project_count avg a = a ∨
      (achStep now project_count avg a).is_unlocked = true := by
  simp only [achStep, projRowStep, skillRowStep, unlock_achievement]
  split_ifs <;> simp_all

/-- The per-row evaluation step is idempotent. -/
theorem achStep_achStep (now project_count : ℕ) (avg : ℚ) (a : Achievement) :
    achStep now project_count avg (achStep now project_count avg a) =
      achStep now project_count avg a := by
  rcases achStep_cases now project_count avg a with h | h
  · rw [h]
    exact h
  · exact achStep_of_unlocked now project_count avg _ h

/-- A row whose criteria type is `streak` is never touched by an
evaluation step. -/
theorem achStep_streak (now project_count : ℕ) (avg : ℚ) (a : Achievement)
    (h : a.criteria_type = .streak) :
    achStep now project_count avg a = a := by
  simp [achStep, projRowStep, skillRowStep, h]

/-- C8: one achievement evaluation maps each row through `achStep`, which
leaves an unlocked row unchanged (so unlock is monotonic), unlocks a locked
`project_count` row exactly when the total project count reaches its
threshold, unlocks a locked `skill_level` row exactly when the mean
proficiency of all tracked skills reaches its threshold, and repeating the
evaluation changes nothing (idempotence). -/
theorem check_achievements_spec (now project_count : ℕ) (skillProfs : List ℚ)
    (achs : List Achievement) :
    check_achievements now project_count skillProfs achs =
      achs.map (achStep now project_count (avgProficiency skillProfs)) ∧
    (∀ a : Achievement, a.is_unlocked = true →
      achStep now project_count (avgProficiency skillProfs) a = a) ∧
    (∀ a : Achievement, a.is_unlocked = false →
      a.criteria_type = .project_count →
      ((achStep now project_count (avgProficiency skillProfs)
          a).is_unlocked = true ↔ a.criteria_value ≤ project_count)) ∧
    (∀ a : Achievement, a.is_unlocked = false →
      a.criteria_type = .skill_level →
      ((achStep now project_count (avgProficiency skillProfs)
          a).is_unlocked = true ↔
        (a.criteria_value : ℚ) ≤ avgProficiency skillProfs)) ∧
    check_achievements now project_count skillProfs
        (check_achievements now project_count skillProfs achs) =
      check_achievements now project_count skillProfs achs := by
  refine ⟨check_achievements_eq_map now project_count skillProfs achs,
    fun a h => achStep_of_unlocked now project_count _ a h, ?_, ?_, ?_⟩
  · intro a h ht
    by_cases hv : a.criteria_value ≤ project_count
    · simp [achStep, projRowStep, skillRowStep, unlock_achievement, h, ht, hv]
    · simp [achStep, projRowStep, skillRowStep, h, ht, hv]
  · intro a h ht
    by_cases hv : (a.criteria_value : ℚ) ≤ avgProficiency skillProfs
    · simp [achStep, projRowStep, skillRowStep, unlock_achievement, h, ht, hv]
    · simp [achStep, projRowStep, skillRowStep, h, ht, hv]
  · rw [check_achievements_eq_map, check_achievements_eq_map, List.map_map]
    exact List.map_congr_left
      (fun a _ => achStep_achStep now project_count (avgProficiency skillProfs) a)

/-- Witness for C8 on the seeded achievement table with 5 projects and two
skills at proficiency 30: "Code Warrior" (locked, `project_count` ≥ 5)
unlocks, and evaluation is idempotent there. -/
theorem check_achievements_spec_witness :
    ((⟨"Code Warrior".toList, .project_count, 5, false, none⟩ :
        Achievement).is_unlocked = false) ∧
    ((⟨"Code Warrior".toList, .project_count, 5, false, none⟩ :
        Achievement).criteria_type = .project_count) ∧
    ((achStep 9 5 (avgProficiency [30, 30])
        ⟨"Code Warrior".toList, .project_count, 5, false, none⟩).is_unlocked
        = true ↔
      (⟨"Code Warrior".toList, .project_count, 5, false, none⟩ :
        Achievement).criteria_value ≤ 5) ∧
    check_achievements 9 5 [30, 30]
        (check_achievements 9 5 [30, 30] seededAchievements) =
      check_achievements 9 5 [30, 30] seededAchievements :=
  ⟨rfl, rfl,
   (check_achievements_spec 9 5 [30, 30] seededAchievements).2.2.1
     ⟨"Code Warrior".toList, .project_count, 5, false, none⟩ rfl rfl,
   (check_achievements_spec 9 5 [30, 30] seededAchievements).2.2.2.2⟩

/-- C10: the achievement evaluator only queries `project_count` and
`skill_level` rows; every achievement whose criteria type is `streak` —
in particular the seeded "Consistency is Key" with threshold 3 — is left
completely unchanged and is never unlocked, for any project count and any
skill proficiencies. -/
theorem check_achievements_streak_frame (now project_count : ℕ)
    (skillProfs : List ℚ) (achs : List Achievement) :
    (∀ (i : ℕ) (a : Achievement), achs[i]? = some a → a.criteria_type = .streak →
      (check_achievements now project_count skillProfs achs)[i]? = some a) ∧
    (check_achievements now project_count skillProfs
        seededAchievements)[3]? =
      some ⟨"Consistency is Key".toList, .streak, 3, false, none⟩ := by
  constructor
  · intro i a h ht
    rw [check_achievements_eq_map, List.getElem?_map, h, Option.map_some']
    rw [achStep_streak now project_count _ a ht]
  · rw [check_achievements_eq_map, List.getElem?_map]
    have h3 : seededAchievements[3]? =
        some ⟨"Consistency is Key".toList, .streak, 3, false, none⟩ := rfl
    rw [h3, Option.map_some',
      achStep_streak now project_count _ _ rfl]

/-- Witness for C10 at 100 projects and empty skill table: the seeded
streak achievement at index 3 is returned unchanged. -/
theorem check_achievements_streak_frame_witness :
    seededAchievements[3]? =
      some ⟨"Consistency is Key".toList, .streak, 3, false, none⟩ ∧
    (⟨"Consistency is Key".toList, .streak, 3, false, none⟩ :
      Achievement).criteria_type = .streak ∧
    (check_achievements 0 100 [] seededAchievements)[3]? =
      some ⟨"Consistency is Key".toList, .streak, 3, false, none⟩ :=
  ⟨rfl, rfl,
   (check_achievements_streak_frame 0 100 [] seededAchievements).1 3
     ⟨"Consistency is Key".toList, .streak, 3, false, none⟩ rfl rfl⟩

/-- The retry loop makes at least one attempt and at most one more attempt
than its remaining budget allows. -/
theorem retryLoop_bounds (r : ℕ → Bool) :
    ∀ b s, 1 ≤ (retryLoop r s (b + 1)).1 ∧ (retryLoop r s (b + 1)).1 ≤ b + 1 := by
  intro b
  induction b with
  | zero =>
    intro s
    by_cases hr : r s <;> simp [retryLoop, hr]
  | succ b ih =>
    intro s
    by_cases hr : r s
    · simp [retryLoop, hr]
    · have h1 := (ih (s + 1)).1
      have h2 := (ih (s + 1)).2
      rw [retryLoop, if_neg hr, if_pos (Nat.succ_pos b)]
      dsimp only
      omega

/-- When every attempt fails, the retry loop spends its whole budget:
starting with counter `s` and budget `b + 1` it makes `b + 1` attempts,
waiting `60·5·(s+i+1)` seconds after the `i`-th of them, and reports
failure. -/
theorem retryLoop_all_fail (r : ℕ → Bool) :
    ∀ b s, (∀ i, i < b + 1 → r (s + i) = false) →
      retryLoop r s (b + 1) =
        (b + 1, (List.range b).map (fun i => 60 * 5 * (s + i + 1)), false) := by
  intro b
  induction b with
  | zero =>
    intro s h
    have h0 : r s = false := by simpa using h 0 (by omega)
    simp [retryLoop, h0]
  | succ b ih =>
    intro s h
    have h0 : r s = false := by simpa using h 0 (by omega)
    have hrec := ih (s + 1) (fun i hi => by
      have hh := h (i + 1) (by omega)
      rwa [show s + (i + 1) = s + 1 + i by omega] at hh)
    rw [retryLoop, if_neg (by simp [h0]), if_pos (Nat.succ_pos b), hrec]
    dsimp only
    rw [List.range_succ_eq_map, List.map_cons, List.map_map]
    simp only [Prod.mk.injEq, List.cons.injEq, true_and, and_true]
    exact List.map_congr_left (fun a _ => by simp [Function.comp]; ring)

/-- When the first success comes at attempt `k` within budget, the retry
loop stops there: `k + 1` attempts, waits after each of the first `k`, and
success. -/
theorem retryLoop_first_success (r : ℕ → Bool) :
    ∀ k b s, (∀ i, i < k → r (s + i) = false) → r (s + k) = true → k ≤ b →
      retryLoop r s (b + 1) =
        (k + 1, (List.range k).map (fun i => 60 * 5 * (s + i + 1)), true) := by
  intro k
  induction k with
  | zero =>
    intro b s _ hk _
    have h0 : r s = true := by simpa using hk
    simp [retryLoop, h0]
  | succ k ih =>
    intro b s h hk hb
    have h0 : r s = false := by simpa using h 0 (by omega)
    obtain ⟨b', rfl⟩ : ∃ b', b = b' + 1 := ⟨b - 1, by omega⟩
    have hrec := ih b' (s + 1)
      (fun i hi => by
        have hh := h (i + 1) (by omega)
        rwa [show s + (i + 1) = s + 1 + i by omega] at hh)
      (by rwa [show s + 1 + k = s + (k + 1) by omega])
      (by omega)
    rw [retryLoop, if_neg (by simp [h0]), if_pos (Nat.succ_pos b'), hrec]
    dsimp only
    rw [List.range_succ_eq_map, List.map_cons, List.map_map]
    simp only [Prod.mk.injEq, List.cons.injEq, true_and, and_true]
    exact List.map_congr_left (fun a _ => by simp [Function.comp]; ring)

/-- C9: on a scheduled fire, the run is aborted without any attempt exactly
when weekend-skip is enabled and the day is Saturday (5) or Sunday (6);
otherwise the workflow is invoked at least once and at most
`max_retries + 1` times; when every attempt fails it is retried exactly
`max_retries` times with a `60·5·n`-second wait before the `n`-th retry and
then gives up, and when the first success comes at attempt `k` it stops
after `k + 1` attempts with the same linear backoff. -/
theorem scheduled_job_spec (skip_weekends : Bool) (weekday : ℕ)
    (retry_on_failure : Bool) (max_retries_cfg : ℕ) (runAttempt : ℕ → Bool) :
    (weekday < 7 →
      ((scheduled_job skip_weekends weekday retry_on_failure max_retries_cfg
          runAttempt).skippedWeekend = true ↔
        (skip_weekends = true ∧ (weekday = 5 ∨ weekday = 6)))) ∧
    (skip_weekends = true → 5 ≤ weekday →
      scheduled_job skip_weekends weekday retry_on_failure max_retries_cfg
        runAttempt = ⟨0, [], false, true⟩) ∧
    (¬(skip_weekends = true ∧ 5 ≤ weekday) →
      1 ≤ (scheduled_job skip_weekends weekday retry_on_failure
        max_retries_cfg runAttempt).attempts ∧
      (scheduled_job skip_weekends weekday retry_on_failure max_retries_cfg
        runAttempt).attempts ≤
        (if retry_on_failure then max_retries_cfg else 0) + 1) ∧
    (retry_on_failure = true → ¬(skip_weekends = true ∧ 5 ≤ weekday) →
      (∀ i, runAttempt i = false) →
      scheduled_job skip_weekends weekday retry_on_failure max_retries_cfg
          runAttempt =
        ⟨max_retries_cfg + 1,
         (List.range max_retries_cfg).map (fun i => 60 * 5 * (i + 1)),
         false, false⟩) ∧
    (retry_on_failure = true → ¬(skip_weekends = true ∧ 5 ≤ weekday) →
      ∀ k, k ≤ max_retries_cfg → (∀ i, i < k → runAttempt i = false) →
        runAttempt k = true →
        scheduled_job skip_weekends weekday retry_on_failure max_retries_cfg
            runAttempt =
          ⟨k + 1, (List.range k).map (fun i => 60 * 5 * (i + 1)),
           true, false⟩) := by
  refine ⟨?_, ?_, ?_, ?_, ?_⟩
  · intro hwk
    by_cases hc : skip_weekends = true ∧ 5 ≤ weekday
    · simp only [scheduled_job, if_pos hc]
      exact iff_of_true trivial ⟨hc.1, by omega⟩
    · simp only [scheduled_job, if_neg hc]
      constructor
      · intro hfalse
        exact absurd hfalse (by simp)
      · intro hh
        exact absurd ⟨hh.1, by omega⟩ hc
  · intro h1 h2
    simp only [scheduled_job, if_pos (And.intro h1 h2)]
  · intro hc
    simp only [scheduled_job, if_neg hc, JobOutcome.attempts]
    constructor
    · exact (retryLoop_bounds runAttempt _ 0).1
    · by_cases hr : retry_on_failure = true
      · rw [hr]
        simpa using (retryLoop_bounds runAttempt max_retries_cfg 0).2
      · rw [if_neg hr]
        simpa using (retryLoop_bounds runAttempt 0 0).2
  · intro hr hc hfail
    have hret := retryLoop_all_fail runAttempt max_retries_cfg 0
      (fun i _ => by simpa using hfail i)
    simp [scheduled_job, hc, hr, hret]
  · intro hr hc k hk hfail hsucc
    have hret := retryLoop_first_success runAttempt k max_retries_cfg 0
      (fun i hi => by simpa using hfail i hi)
      (by simpa using hsucc) hk
    simp [scheduled_job, hc, hr, hret]

/-- Witness for C9: with weekend-skip on a Sunday the run is aborted with
no attempt, and on a Wednesday with `max_retries = 2` and an always-failing
workflow the job attempts 3 times with waits of 300 and 600 seconds and
gives up. -/
theorem scheduled_job_spec_witness :
    (true = true ∧ 5 ≤ (6 : ℕ) ∧
      scheduled_job true 6 true 3 (fun _ => false) = ⟨0, [], false, true⟩) ∧
    (¬(false = true ∧ 5 ≤ (2 : ℕ)) ∧ (∀ i : ℕ, (fun _ : ℕ => false) i = false) ∧
      scheduled_job false 2 true 2 (fun _ => false) =
        ⟨2 + 1, (List.range 2).map (fun i => 60 * 5 * (i + 1)), false, false⟩ ∧
      scheduled_job false 2 true 2 (fun _ => false) = ⟨3, [300, 600], false, false⟩) :=
  ⟨⟨rfl, by norm_num,
     (scheduled_job_spec true 6 true 3 (fun _ => false)).2.1 rfl (by norm_num)⟩,
   ⟨by simp, fun i => rfl,
     (scheduled_job_spec false 2 true 2 (fun _ => false)).2.2.2.1 rfl
       (by simp) (fun i => rfl),
     by decide⟩⟩

end DailyStreak
